import Mathlib

/- Shallow embedding of the debt-collection allocation & SLA engine of this
   repository.  The main engine is the Express server `dca-api.js`; the
   repository also contains an earlier queue-based pipeline (second server
   file) whose `prioritizeCase` / manual-reallocation handler are embedded
   below where claims reference them.

   Modelling conventions:
   * JavaScript numbers are exact rationals (ℚ); `Date` timestamps are
     rationals counting milliseconds.
   * `Map` iteration order is insertion order, modelled as list order; the
     agent registry `dcaProfiles` is built with keys DCA-001 .. DCA-004 in
     ascending order and no agent is ever added or removed.
   * Agent identifiers `DCA-00k` are modelled by their numeric suffix `k`;
     lexicographic order on the fixed-width strings agrees with numeric order.
   * Status and tier strings become inductive types; `Number(x.toFixed(n))`
     becomes exact decimal rounding (ECMA toFixed picks the larger candidate
     on ties, i.e. half-up). -/

namespace DCA

/-- Case lifecycle status strings used by the servers. -/
inductive Status where
  | RECEIVED
  | PRIORITIZED
  | ALLOCATED
  | IN_PROGRESS
  | ESCALATED
  | RESOLVED
deriving DecidableEq, Repr

/-- Risk tier strings CRITICAL / HIGH / MEDIUM / LOW. -/
inductive Tier where
  | CRITICAL
  | HIGH
  | MEDIUM
  | LOW
deriving DecidableEq, Repr

/-- The three absolute SLA deadlines attached at allocation time. -/
structure SlaDeadlines where
  firstAction : ℚ
  followUp : ℚ
  resolution : ℚ
deriving DecidableEq, Repr

/-- Audit-trail entry (timestamps omitted: wall-clock strings, unused by any
claim). -/
structure AuditEntry where
  action : String
  user : String
  details : String
deriving DecidableEq, Repr

/-- A logged interaction (field `type` of the source is `itype` here). -/
structure Interaction where
  itype : String
  details : String
  result : String
  dcaId : ℕ
deriving DecidableEq, Repr

/-- One row of the `candidateDetails` list built during allocation. -/
structure CandidateDetail where
  dcaId : ℕ
  dcaScore : ℚ
  priorityFactor : ℚ
  finalScore : ℚ
deriving DecidableEq, Repr

/-- Case record of `dca-api.js` (contact/tracking strings and the documents
list are omitted: no claim mentions them). `recoveredAmount` is `none` until
resolution. -/
structure Case where
  caseId : String
  debtAmount : ℚ
  debtAge : ℚ
  geoRegion : String
  status : Status
  riskLevel : ℕ
  recoveryProbability : ℚ
  priority : Tier
  allocatedDCA : Option ℕ
  allocationScore : Option ℚ
  allocationCandidates : List CandidateDetail
  allocationChosen : Option (ℕ × ℚ)
  slaDeadlines : Option SlaDeadlines
  slaBreached : Bool
  resolutionType : Option String
  recoveredAmount : Option ℚ
  interactions : List Interaction
  disputes : List String
  auditTrail : List AuditEntry
deriving DecidableEq, Repr

/-- Agent profile of `dca-api.js` (`averageResolutionDays` omitted: unused by
every claim). -/
structure Agent where
  dcaId : ℕ
  name : String
  capacity : ℚ
  currentLoad : ℚ
  historicalRecoveryRate : ℚ
  specialization : List String
  geoRegion : String
  complianceScore : ℚ
  cases : List String
  slaBreaches : ℕ
  recoveredAmount : ℚ
deriving DecidableEq, Repr

/-- Function `assessRisk(amount, age)` from `dca-api.js`: index into
`['CRITICAL','HIGH','MEDIUM','LOW']`. -/
def assessRisk (amount age : ℚ) : ℕ :=
  if amount > 100000 ∨ age > 180 then 0
  else if amount > 50000 ∨ age > 120 then 1
  else if amount > 20000 ∨ age > 60 then 2
  else 3

/-- The priority lookup `['CRITICAL','HIGH','MEDIUM','LOW'][riskLevel]`.
`assessRisk` only produces 0..3, so the catch-all is reached only at 3. -/
def tierOfIndex : ℕ → Tier
  | 0 => .CRITICAL
  | 1 => .HIGH
  | 2 => .MEDIUM
  | _ => .LOW

/-- Function `calculateRecoveryProbability(amount, age)` with the `Math.random` noise
draw made an explicit parameter (the spec requires the noise source to be
injectable; production draws uniformly from [-0.075, 0.075]). -/
def calculateRecoveryProbability (amount age noise : ℚ) : ℚ :=
  let ageFactor := min (age / 360) 0.5
  let amountFactor := min (amount / 500000) 0.4
  let base := (1 - ageFactor) * (1 - amountFactor)
  max 0.2 (min 1 (base + noise))

/-- Per-tier SLA configuration record. -/
structure SlaCfg where
  firstActionHours : ℚ
  followUpDays : ℚ
  resolutionDays : ℚ
deriving DecidableEq, Repr

/-- The `slaConfig` table of `dca-api.js`. -/
def slaConfig : Tier → SlaCfg
  | .CRITICAL => ⟨24, 2, 7⟩
  | .HIGH => ⟨48, 3, 15⟩
  | .MEDIUM => ⟨72, 4, 20⟩
  | .LOW => ⟨96, 7, 30⟩

/-- The SLA deadline set computed at allocation time:
`now + hours*3600000`, `now + days*24*3600000` (milliseconds). -/
def mkSlaDeadlines (t : Tier) (now : ℚ) : SlaDeadlines :=
  { firstAction := now + (slaConfig t).firstActionHours * 3600000
    followUp := now + (slaConfig t).followUpDays * 24 * 3600000
    resolution := now + (slaConfig t).resolutionDays * 24 * 3600000 }

/-- Rounding `Number(x.toFixed(digits))` on exact rationals: round half-up to the
given number of decimal digits. -/
def roundTo (digits : ℕ) (x : ℚ) : ℚ :=
  (⌊x * 10 ^ digits + 1 / 2⌋ : ℚ) / 10 ^ digits

/-- The capacity filter of the allocation loop:
`if (dca.currentLoad >= dca.capacity) return;`. -/
def hasCapacity (a : Agent) : Bool :=
  decide (a.currentLoad < a.capacity)

/-- Match term `specializationMatch`: 1 iff the case is CRITICAL and the agent's tags
include "High-Value", else 0.7. -/
def specializationMatch (c : Case) (a : Agent) : ℚ :=
  if c.priority = .CRITICAL ∧ "High-Value" ∈ a.specialization then 1 else 0.7

/-- Match term `geoMatch`: 1 iff the agent's region equals the case's region, else 0.8. -/
def geoMatch (c : Case) (a : Agent) : ℚ :=
  if a.geoRegion = c.geoRegion then 1 else 0.8

/-- The suitability score of the allocation loop, with the source's weights
`w1=0.3, w2=0.25, w3=0.2, w4=0.15, w5=0.1`. -/
def dcaScore (c : Case) (a : Agent) : ℚ :=
  0.3 * a.historicalRecoveryRate + 0.25 * specializationMatch c a
    + 0.2 * geoMatch c a - 0.15 * (a.currentLoad / a.capacity)
    - 0.1 * (1 - a.complianceScore)

/-- The business priority factor `{CRITICAL: 1.5, HIGH: 1.3, MEDIUM: 1.0, LOW: 0.8}`. -/
def priorityFactor : Tier → ℚ
  | .CRITICAL => 1.5
  | .HIGH => 1.3
  | .MEDIUM => 1
  | .LOW => 0.8

/-- Ranking value `finalScore = riskIndex * dcaScore * priorityFactor`, where `riskIndex`
is the case's `recoveryProbability`. -/
def finalScore (c : Case) (a : Agent) : ℚ :=
  c.recoveryProbability * dcaScore c a * priorityFactor c.priority

/-- The candidate row pushed for each agent with capacity:
`dcaScore` rounded to 4 digits, `finalScore` rounded to 6. -/
def candidateEntry (c : Case) (a : Agent) : CandidateDetail :=
  { dcaId := a.dcaId
    dcaScore := roundTo 4 (dcaScore c a)
    priorityFactor := priorityFactor c.priority
    finalScore := roundTo 6 (finalScore c a) }

/-- The full `candidateDetails` list: one row per agent passing the capacity
filter, in registry order (the source builds it inside the same forEach that
does the capacity check). -/
def candidateDetails (c : Case) (agents : List Agent) : List CandidateDetail :=
  (agents.filter hasCapacity).map (candidateEntry c)

/-- One step of the best-score scan: `bestScore` starts at `-Infinity`
(modelled by the `none` accumulator — every finite score beats it) and the
champion is replaced only on `finalScore > bestScore` (strict). -/
def scanStep (c : Case) (acc : Option (Agent × ℚ)) (a : Agent) : Option (Agent × ℚ) :=
  if hasCapacity a then
    match acc with
    | none => some (a, finalScore c a)
    | some (b, bs) => if finalScore c a > bs then some (a, finalScore c a) else some (b, bs)
  else acc

/-- The `bestDCA`/`bestScore` selection scan of `allocateCaseIntelligently`. -/
def selectAgent (c : Case) (agents : List Agent) : Option (Agent × ℚ) :=
  agents.foldl (scanStep c) none

/-- Reservation `bestDCA.currentLoad++; bestDCA.cases.push(caseId)` — update the (unique)
registry entry with the winner's id. -/
def reserveAgent (wid : ℕ) (cid : String) : List Agent → List Agent
  | [] => []
  | a :: rest =>
      if a.dcaId = wid then
        { a with currentLoad := a.currentLoad + 1, cases := a.cases ++ [cid] } :: rest
      else a :: reserveAgent wid cid rest

/-- Function `allocateCaseIntelligently(caseId)` of `dca-api.js`, as a pure transformer
of the case under allocation and the agent registry.  When no agent passes
the capacity filter the scan yields nothing and the whole body is skipped:
case and registry come back unchanged (the NoCapacity outcome). -/
def allocateCaseIntelligently (c : Case) (agents : List Agent) (now : ℚ) :
    Case × List Agent :=
  match selectAgent c agents with
  | none => (c, agents)
  | some (best, bestScore) =>
      let riskKey := tierOfIndex (assessRisk c.debtAmount c.debtAge)
      ({ c with
          allocatedDCA := some best.dcaId
          allocationScore := some (roundTo 4 bestScore)
          allocationCandidates := candidateDetails c agents
          allocationChosen := some (best.dcaId, roundTo 6 bestScore)
          status := .ALLOCATED
          slaDeadlines := some (mkSlaDeadlines riskKey now)
          auditTrail := c.auditTrail ++
            [⟨"CASE_ALLOCATED", "SYSTEM", "Allocated to chosen agent"⟩] },
        reserveAgent best.dcaId c.caseId agents)

/-- The case record built by `POST /api/cases/ingest` (the caller supplies
"Unknown" for a missing region, matching `geoRegion || 'Unknown'`). -/
def ingestCase (cid : String) (debtAmount debtAge : ℚ) (geoRegion : String)
    (noise : ℚ) : Case :=
  { caseId := cid
    debtAmount := debtAmount
    debtAge := debtAge
    geoRegion := geoRegion
    status := .RECEIVED
    riskLevel := assessRisk debtAmount debtAge
    recoveryProbability := calculateRecoveryProbability debtAmount debtAge noise
    priority := tierOfIndex (assessRisk debtAmount debtAge)
    allocatedDCA := none
    allocationScore := none
    allocationCandidates := []
    allocationChosen := none
    slaDeadlines := none
    slaBreached := false
    resolutionType := none
    recoveredAmount := none
    interactions := []
    disputes := []
    auditTrail := [⟨"CASE_CREATED", "fedex", "Case received from FedEx"⟩] }

/-- Predicate `isWithinPermittedHours()` with the wall-clock hour injected. -/
def isWithinPermittedHours (hour : ℕ) : Bool :=
  decide (9 ≤ hour ∧ hour ≤ 18)

/-- Handler `POST /api/cases/:caseId/interaction`: appends the interaction, possibly
a SOP-violation audit entry, possibly a dispute, then unconditionally sets
the status to IN_PROGRESS and appends the interaction audit entry. -/
def logInteraction (c : Case) (itype details result : String) (actor : String)
    (dcaId : ℕ) (hour : ℕ) : Case :=
  let c1 : Case :=
    { c with interactions := c.interactions ++ [⟨itype, details, result, dcaId⟩] }
  let c2 : Case :=
    if itype = "CALL" ∧ isWithinPermittedHours hour = false then
      { c1 with auditTrail := c1.auditTrail ++
          [⟨"SOP_VIOLATION", actor, "Contact outside permitted hours"⟩] }
    else c1
  let c3 : Case :=
    if result = "DISPUTE" then { c2 with disputes := c2.disputes ++ [details] } else c2
  { c3 with
      status := .IN_PROGRESS
      auditTrail := c3.auditTrail ++
        [⟨"INTERACTION_LOGGED", actor, itype ++ " interaction: " ++ result⟩] }

/-- Handler `POST /api/cases/:caseId/escalate`: unconditionally sets ESCALATED and
appends an audit entry (there is no status check in the handler). -/
def escalate (c : Case) (actor reason targetRole : String) : Case :=
  { c with
      status := .ESCALATED
      auditTrail := c.auditTrail ++
        [⟨"ESCALATION", actor, "Escalated to " ++ targetRole ++ ": " ++ reason⟩] }

/-- Handler `POST /api/cases/:caseId/resolve`: unconditionally sets RESOLVED, stores
the resolution, credits the allocated agent when the amount is truthy
(nonzero), and appends an audit entry (no status check in the handler). -/
def resolveCase (c : Case) (agents : List Agent) (actor resolutionType : String)
    (recoveredAmount : ℚ) : Case × List Agent :=
  let c1 := { c with
      status := .RESOLVED
      resolutionType := some resolutionType
      recoveredAmount := some recoveredAmount
      auditTrail := c.auditTrail ++ [⟨"CASE_RESOLVED", actor, resolutionType⟩] }
  let agents1 :=
    match c.allocatedDCA with
    | some did =>
        if recoveredAmount ≠ 0 then
          agents.map fun a =>
            if a.dcaId = did then
              { a with recoveredAmount := a.recoveredAmount + recoveredAmount }
            else a
        else agents
    | none => agents
  (c1, agents1)

/-- One row of the `GET /api/sla/status` response (`hoursRemaining` is the
clamped value, rounded as `toFixed(1)`). -/
structure SlaEntry where
  caseId : String
  breached : Bool
  hoursRemaining : ℚ
deriving DecidableEq, Repr

/-- The breach penalty of the SLA handler: increment `slaBreaches` on the
registry entry named by the case's allocated agent, when there is one. -/
def applyBreachPenalty (did : Option ℕ) (agents : List Agent) : List Agent :=
  match did with
  | none => agents
  | some i =>
      agents.map fun a =>
        if a.dcaId = i then { a with slaBreaches := a.slaBreaches + 1 } else a

/-- Per-case body of the `caseRegistry.forEach` in `GET /api/sla/status`:
RESOLVED cases and cases without deadlines are skipped; otherwise
`breached := now > resolution`, and when breached the case's flag is set and
the penalty applied — on every evaluation, with no already-counted guard. -/
def evalCaseSLA (now : ℚ) (c : Case) (agents : List Agent) :
    Case × List Agent × Option SlaEntry :=
  if c.status = .RESOLVED then (c, agents, none)
  else
    match c.slaDeadlines with
    | none => (c, agents, none)
    | some d =>
        ((if now > d.resolution then { c with slaBreached := true } else c),
         (if now > d.resolution then applyBreachPenalty c.allocatedDCA agents else agents),
         some { caseId := c.caseId
                breached := decide (now > d.resolution)
                hoursRemaining := roundTo 1 (max 0 ((d.resolution - now) / 3600000)) })

/-- One step of the registry sweep: thread the mutated agent registry,
collect the mutated case and any produced status row. -/
def slaSweepStep (now : ℚ) (st : List Case × List Agent × List SlaEntry)
    (c : Case) : List Case × List Agent × List SlaEntry :=
  (st.1 ++ [(evalCaseSLA now c st.2.1).1],
   (evalCaseSLA now c st.2.1).2.1,
   st.2.2 ++ (evalCaseSLA now c st.2.1).2.2.toList)

/-- The whole `GET /api/sla/status` sweep over the case registry. -/
def evaluateSLA (now : ℚ) (cases : List Case) (agents : List Agent) :
    List Case × List Agent × List SlaEntry :=
  cases.foldl (slaSweepStep now) ([], agents, [])

/-- The fixed agent registry of `dca-api.js`, entry DCA-001. -/
def dca1 : Agent :=
  ⟨1, "John Smith", 5, 0, 0.82, ["High-Value", "Corporate"], "North-East", 0.95,
    [], 0, 450000⟩

/-- Registry entry DCA-002. -/
def dca2 : Agent :=
  ⟨2, "Sarah Johnson", 5, 0, 0.78, ["Small-Medium", "Individuals"], "South-West", 0.88,
    [], 1, 320000⟩

/-- Registry entry DCA-003. -/
def dca3 : Agent :=
  ⟨3, "Mike Davis", 5, 0, 0.75, ["Disputed", "Complex"], "Central", 0.92,
    [], 0, 280000⟩

/-- Registry entry DCA-004. -/
def dca4 : Agent :=
  ⟨4, "Emma Wilson", 5, 0, 0.80, ["Collections", "Escalations"], "West-Coast", 0.90,
    [], 0, 410000⟩

/-- The `dcaProfiles` map in its insertion (and id-ascending) order. -/
def dcaProfiles : List Agent := [dca1, dca2, dca3, dca4]

/-- Agent invariant of the spec: load equals the length of the assigned-case
list, for every registry entry. -/
def loadInvariant (agents : List Agent) : Prop :=
  ∀ a ∈ agents, a.currentLoad = (a.cases.length : ℚ)

/- ----- The earlier queue-based pipeline (second server file) ----- -/

/-- One `dcaWorkload` entry of the queue pipeline (`current` is its load
counter; the object key is modelled as the numeric `dcaId`). -/
structure Workload where
  dcaId : ℕ
  capacity : ℚ
  current : ℚ
  cases : List String
deriving DecidableEq, Repr

/-- The seeded `dcaWorkload` table of the queue pipeline: DCA-001..004 with
current loads 2, 1, 3, 0 and empty case lists. -/
def dcaWorkloadSeed : List Workload :=
  [⟨1, 5, 2, []⟩, ⟨2, 5, 1, []⟩, ⟨3, 5, 3, []⟩, ⟨4, 5, 0, []⟩]

/-- Workload invariant: load counter equals the case-list length. -/
def wloadInvariant (ws : List Workload) : Prop :=
  ∀ w ∈ ws, w.current = (w.cases.length : ℚ)

/-- Case record of the queue pipeline (fields the cited handlers touch). -/
structure QCase where
  caseId : String
  debtAmount : ℚ
  debtAge : ℚ
  status : Status
  priority : Option Tier
  recoveryProbability : Option ℚ
  allocatedDCA : Option ℕ
deriving DecidableEq, Repr

/-- The tier cascade of `prioritizeCase` in the queue pipeline (note: its
CRITICAL rule tests only the amount). -/
def prioritizeTier (debtAmount debtAge : ℚ) : Tier :=
  if debtAmount > 100000 then .CRITICAL
  else if debtAmount > 50000 ∨ debtAge > 120 then .HIGH
  else if debtAmount > 20000 ∨ debtAge > 60 then .MEDIUM
  else .LOW

/-- Function `prioritizeCase(caseId)` of the queue pipeline: sets priority and a
random recovery probability (the draw `(Math.random()*0.4+0.5).toFixed(4)`
is the injected `draw` parameter) and moves the case to PRIORITIZED. -/
def prioritizeCase (c : QCase) (draw : ℚ) : QCase :=
  { c with
      priority := some (prioritizeTier c.debtAmount c.debtAge)
      recoveryProbability := some draw
      status := .PRIORITIZED }

/-- Release step of the manual-reallocation handler: on the old agent's
entry, if the case id is present, remove its first occurrence
(`splice(indexOf, 1)`) and decrement the load counter — both inside the same
guard. -/
def releaseFromOld (cid : String) (oldId : ℕ) (ws : List Workload) : List Workload :=
  ws.map fun w =>
    if w.dcaId = oldId ∧ cid ∈ w.cases then
      { w with cases := w.cases.erase cid, current := w.current - 1 }
    else w

/-- Assignment step of the manual-reallocation handler: push the case id and
increment the load counter on the target entry. -/
def assignTo (cid : String) (tid : ℕ) (ws : List Workload) : List Workload :=
  ws.map fun w =>
    if w.dcaId = tid then { w with cases := w.cases ++ [cid], current := w.current + 1 }
    else w

/-- Handler `POST /api/cases/:caseId/allocate/:dcaId` of the queue pipeline: 404
(`none`) when the target agent is unknown; otherwise release from the case's
previous agent (when it has one) and assign to the target. -/
def manualReallocate (cid : String) (tid : ℕ) (oldDCA : Option ℕ)
    (ws : List Workload) : Option (List Workload) :=
  if (ws.filter fun w => w.dcaId = tid).isEmpty then none
  else
    let ws1 :=
      match oldDCA with
      | some oid => releaseFromOld cid oid ws
      | none => ws
    some (assignTo cid tid ws1)

/- ----- Concrete inputs used by witnesses and counterexamples ----- -/

/-- A classified CRITICAL case in the North-East region with recovery
probability 1/2, as produced by intake just before allocation. -/
def demoCase : Case :=
  { ingestCase "FDX-1001" 150000 10 "North-East" 0 with recoveryProbability := 1/2 }

/-- A saturated copy of the registry: every agent's load equals its capacity. -/
def satRegistry : List Agent :=
  [{ dca1 with currentLoad := 5 }, { dca2 with currentLoad := 5 },
   { dca3 with currentLoad := 5 }, { dca4 with currentLoad := 5 }]

/-- An allocated case whose resolution deadline (epoch 0) has passed. -/
def breachedCase : Case :=
  { demoCase with
      status := .ALLOCATED
      allocatedDCA := some 1
      slaDeadlines := some ⟨-600 * 3600000, -400 * 3600000, 0⟩ }

/-- A case already in the terminal RESOLVED state. -/
def resolvedDemo : Case :=
  { demoCase with status := .RESOLVED }

/- ----- Helper lemmas about the selection scan ----- -/

lemma scanStep_skip (c : Case) (acc : Option (Agent × ℚ)) (a : Agent)
    (h : hasCapacity a = false) : scanStep c acc a = acc := by
  simp [scanStep, h]

lemma scanStep_elig_none (c : Case) (a : Agent) (h : hasCapacity a = true) :
    scanStep c none a = some (a, finalScore c a) := by
  simp [scanStep, h]

lemma scanStep_elig_some (c : Case) (a b : Agent) (bs : ℚ) (h : hasCapacity a = true) :
    scanStep c (some (b, bs)) a =
      if finalScore c a > bs then some (a, finalScore c a) else some (b, bs) := by
  simp [scanStep, h]

/-- Scan invariant from an eligible champion `b` that precedes (in id order)
all remaining agents: the scan ends on an eligible agent holding the maximum
final score, earliest-in-order (hence least-id) among the maxima. -/
lemma scan_from_champion (c : Case) (rest : List Agent) :
    ∀ b : Agent, hasCapacity b = true →
      (∀ d ∈ rest, b.dcaId < d.dcaId) →
      rest.Pairwise (fun x y => x.dcaId < y.dcaId) →
      ∃ w, rest.foldl (scanStep c) (some (b, finalScore c b)) = some (w, finalScore c w)
        ∧ hasCapacity w = true ∧ (w = b ∨ w ∈ rest)
        ∧ finalScore c b ≤ finalScore c w
        ∧ (finalScore c b = finalScore c w → w = b)
        ∧ ∀ d ∈ rest, hasCapacity d = true →
            finalScore c d ≤ finalScore c w
            ∧ (finalScore c d = finalScore c w → w.dcaId ≤ d.dcaId) := by
  induction rest with
  | nil =>
    intro b hb _ _
    exact ⟨b, by simp, hb, Or.inl rfl, le_refl _, fun _ => rfl, by simp⟩
  | cons d rest ih =>
    intro b hb hlt hpw
    have hdlt : ∀ x ∈ rest, d.dcaId < x.dcaId := (List.pairwise_cons.mp hpw).1
    have hpw' : rest.Pairwise (fun x y => x.dcaId < y.dcaId) :=
      (List.pairwise_cons.mp hpw).2
    have hblt : ∀ x ∈ rest, b.dcaId < x.dcaId :=
      fun x hx => hlt x (List.mem_cons_of_mem d hx)
    by_cases hd : hasCapacity d = true
    · by_cases hgt : finalScore c d > finalScore c b
      · obtain ⟨w, hfold, hwcap, hwin, hle, htie, hall⟩ := ih d hd hdlt hpw'
        have hstep : (d :: rest).foldl (scanStep c) (some (b, finalScore c b))
            = rest.foldl (scanStep c) (some (d, finalScore c d)) := by
          simp [List.foldl_cons, scanStep_elig_some c d b _ hd, hgt]
        have hbw : finalScore c b < finalScore c w := lt_of_lt_of_le hgt hle
        refine ⟨w, hstep ▸ hfold, hwcap, ?_, le_of_lt hbw,
          fun h => absurd h (ne_of_lt hbw), ?_⟩
        · rcases hwin with rfl | h
          · exact Or.inr (List.mem_cons_self _ _)
          · exact Or.inr (List.mem_cons_of_mem _ h)
        · intro x hx hxcap
          rcases List.mem_cons.mp hx with rfl | hx'
          · exact ⟨hle, fun h => le_of_eq (by rw [htie h])⟩
          · exact hall x hx' hxcap
      · obtain ⟨w, hfold, hwcap, hwin, hle, htie, hall⟩ := ih b hb hblt hpw'
        have hstep : (d :: rest).foldl (scanStep c) (some (b, finalScore c b))
            = rest.foldl (scanStep c) (some (b, finalScore c b)) := by
          simp [List.foldl_cons, scanStep_elig_some c d b _ hd, hgt]
        refine ⟨w, hstep ▸ hfold, hwcap, ?_, hle, htie, ?_⟩
        · rcases hwin with rfl | h
          · exact Or.inl rfl
          · exact Or.inr (List.mem_cons_of_mem _ h)
        · intro x hx hxcap
          rcases List.mem_cons.mp hx with rfl | hx'
          · have hxb : finalScore c x ≤ finalScore c b := le_of_not_lt hgt
            refine ⟨le_trans hxb hle, fun h => ?_⟩
            have hbe : finalScore c b = finalScore c w :=
              le_antisymm hle (h ▸ hxb)
            have : w = b := htie hbe
            rw [this]
            exact le_of_lt (hlt x (List.mem_cons_self _ _))
          · exact hall x hx' hxcap
    · have hd' : hasCapacity d = false := by
        cases hcd : hasCapacity d
        · rfl
        · exact absurd hcd hd
      obtain ⟨w, hfold, hwcap, hwin, hle, htie, hall⟩ := ih b hb hblt hpw'
      have hstep : (d :: rest).foldl (scanStep c) (some (b, finalScore c b))
          = rest.foldl (scanStep c) (some (b, finalScore c b)) := by
        simp [List.foldl_cons, scanStep_skip c _ d hd']
      refine ⟨w, hstep ▸ hfold, hwcap, ?_, hle, htie, ?_⟩
      · rcases hwin with rfl | h
        · exact Or.inl rfl
        · exact Or.inr (List.mem_cons_of_mem _ h)
      · intro x hx hxcap
        rcases List.mem_cons.mp hx with rfl | hx'
        · exact absurd hxcap (by simp [hd'])
        · exact hall x hx' hxcap

/-- Full characterisation of the selection scan on a registry whose ids are
strictly ascending along the iteration order: either nobody has capacity and
nothing is selected, or the selected agent has capacity and holds the
maximum final score, with exact ties resolved to the least id. -/
lemma selectAgent_spec (c : Case) (agents : List Agent) :
    agents.Pairwise (fun x y => x.dcaId < y.dcaId) →
    (selectAgent c agents = none ∧ ∀ a ∈ agents, hasCapacity a = false) ∨
    ∃ w, selectAgent c agents = some (w, finalScore c w) ∧ hasCapacity w = true
      ∧ w ∈ agents
      ∧ ∀ a ∈ agents, hasCapacity a = true →
          finalScore c a ≤ finalScore c w
          ∧ (finalScore c a = finalScore c w → w.dcaId ≤ a.dcaId) := by
  induction agents with
  | nil => intro _; exact Or.inl ⟨rfl, by simp⟩
  | cons a rest ih =>
    intro hpw
    have halt : ∀ x ∈ rest, a.dcaId < x.dcaId := (List.pairwise_cons.mp hpw).1
    have hpw' : rest.Pairwise (fun x y => x.dcaId < y.dcaId) :=
      (List.pairwise_cons.mp hpw).2
    by_cases ha : hasCapacity a = true
    · right
      obtain ⟨w, hfold, hwcap, hwin, hle, htie, hall⟩ :=
        scan_from_champion c rest a ha halt hpw'
      refine ⟨w, ?_, hwcap, ?_, ?_⟩
      · show (a :: rest).foldl (scanStep c) none = some (w, finalScore c w)
        rw [List.foldl_cons, scanStep_elig_none c a ha]
        exact hfold
      · rcases hwin with rfl | h
        · exact List.mem_cons_self _ _
        · exact List.mem_cons_of_mem _ h
      · intro x hx hxcap
        rcases List.mem_cons.mp hx with rfl | hx'
        · exact ⟨hle, fun h => le_of_eq (by rw [htie h])⟩
        · exact hall x hx' hxcap
    · have ha' : hasCapacity a = false := by
        cases hca : hasCapacity a
        · rfl
        · exact absurd hca ha
      have hsel : selectAgent c (a :: rest) = selectAgent c rest := by
        show (a :: rest).foldl (scanStep c) none = rest.foldl (scanStep c) none
        rw [List.foldl_cons, scanStep_skip c _ a ha']
      rcases ih hpw' with ⟨hnone, hrest⟩ | ⟨w, hw, hwcap, hwmem, hwall⟩
      · left
        refine ⟨hsel.trans hnone, ?_⟩
        intro x hx
        rcases List.mem_cons.mp hx with rfl | hx'
        · exact ha'
        · exact hrest x hx'
      · right
        refine ⟨w, hsel.trans hw, hwcap, List.mem_cons_of_mem _ hwmem, ?_⟩
        intro x hx hxcap
        rcases List.mem_cons.mp hx with rfl | hx'
        · exact absurd hxcap (by simp [ha'])
        · exact hwall x hx' hxcap

/-- On the demo inputs the scan picks DCA-001 with final score 0.51825. -/
lemma selectAgent_demo_eval :
    selectAgent demoCase dcaProfiles = some (dca1, 2073 / 4000) := by
  norm_num [selectAgent, List.foldl_cons, List.foldl_nil, scanStep, hasCapacity,
    finalScore, dcaScore, specializationMatch, geoMatch, priorityFactor,
    demoCase, ingestCase, assessRisk, tierOfIndex, calculateRecoveryProbability,
    dcaProfiles, dca1, dca2, dca3, dca4]
  simp
  norm_num

/-- C1: on any registry iterated in ascending-identifier order (which is how
`dcaProfiles` is built and kept), the allocation scan selects an agent with
remaining capacity holding the strictly greatest finalScore, exact ties going
to the least agent identifier, and the selection is a deterministic function
of the case and registry (same winner, same score on identical inputs). -/
theorem allocation_max_score_id_tiebreak_deterministic
    (agents : List Agent) (c : Case) (w : Agent) (s : ℚ)
    (hsort : agents.Pairwise (fun x y => x.dcaId < y.dcaId))
    (hsel : selectAgent c agents = some (w, s)) :
    s = finalScore c w ∧ hasCapacity w = true ∧ w ∈ agents ∧
    (∀ a ∈ agents, hasCapacity a = true →
        finalScore c a ≤ finalScore c w ∧
        (finalScore c a = finalScore c w → w.dcaId ≤ a.dcaId)) ∧
    (∀ w2 s2, selectAgent c agents = some (w2, s2) → w2 = w ∧ s2 = s) := by
  rcases selectAgent_spec c agents hsort with ⟨hnone, _⟩ | ⟨v, hv, hvcap, hvmem, hvall⟩
  · rw [hnone] at hsel
    cases hsel
  · have hvw : v = w ∧ finalScore c v = s := by
      have h := hv.symm.trans hsel
      exact ⟨(Prod.mk.injEq .. ▸ Option.some.inj h).1,
        (Prod.mk.injEq .. ▸ Option.some.inj h).2⟩
    obtain ⟨rfl, hs⟩ := hvw
    refine ⟨hs.symm, hvcap, hvmem, hvall, ?_⟩
    intro w2 s2 h2
    have h := hv.symm.trans h2
    exact ⟨(Prod.mk.injEq .. ▸ Option.some.inj h).1.symm,
      ((Prod.mk.injEq .. ▸ Option.some.inj h).2.symm).trans hs⟩

/-- Witness for C1: the fixed registry is id-sorted, the scan returns DCA-001
with score 0.51825, and the theorem's conclusions hold there. -/
theorem allocation_max_score_id_tiebreak_deterministic_witness :
    (dcaProfiles.Pairwise (fun x y => x.dcaId < y.dcaId) ∧
      selectAgent demoCase dcaProfiles = some (dca1, 2073 / 4000)) ∧
    (2073 / 4000 : ℚ) = finalScore demoCase dca1 ∧ hasCapacity dca1 = true ∧
    dca1 ∈ dcaProfiles ∧
    (∀ a ∈ dcaProfiles, hasCapacity a = true →
        finalScore demoCase a ≤ finalScore demoCase dca1 ∧
        (finalScore demoCase a = finalScore demoCase dca1 → dca1.dcaId ≤ a.dcaId)) ∧
    (∀ w2 s2, selectAgent demoCase dcaProfiles = some (w2, s2) →
        w2 = dca1 ∧ s2 = 2073 / 4000) :=
  ⟨⟨by simp [dcaProfiles, dca1, dca2, dca3, dca4], selectAgent_demo_eval⟩,
    allocation_max_score_id_tiebreak_deterministic dcaProfiles demoCase dca1 (2073 / 4000)
      (by simp [dcaProfiles, dca1, dca2, dca3, dca4]) selectAgent_demo_eval⟩

/-- Suitability score written from the spec's words (§4.3 step 2), to be
compared against the implementation's `dcaScore`:
`w1·historicalRecoveryRate + w2·specializationMatch + w3·geoMatch −
w4·loadPenalty − w5·complianceRisk` with `w1=0.30, w2=0.25, w3=0.20,
w4=0.15, w5=0.10`. -/
def specSuitabilityScore (c : Case) (a : Agent) : ℚ :=
  0.30 * a.historicalRecoveryRate
    + 0.25 * (if c.priority = .CRITICAL ∧ "High-Value" ∈ a.specialization then 1 else 0.7)
    + 0.20 * (if a.geoRegion = c.geoRegion then 1 else 0.8)
    - 0.15 * (a.currentLoad / a.capacity)
    - 0.10 * (1 - a.complianceScore)

/-- C2: for every agent passing the capacity filter, the implementation's
suitability score is exactly the spec's weighted formula, the match terms
take value 1 exactly in the spec's cases (else 0.7 / 0.8), the priority
factor is 1.5/1.3/1.0/0.8 by tier, the ranking value is
recoveryProbability × score × priorityFactor, and the candidate-detail list
records the candidate's (rounded) score, priorityFactor and finalScore. -/
theorem suitability_formula_and_candidate_record (c : Case) (a : Agent)
    (agents : List Agent) (ha : a ∈ agents) (hcap : hasCapacity a = true) :
    dcaScore c a = specSuitabilityScore c a ∧
    (specializationMatch c a = 1 ↔
      c.priority = .CRITICAL ∧ "High-Value" ∈ a.specialization) ∧
    (¬(c.priority = .CRITICAL ∧ "High-Value" ∈ a.specialization) →
      specializationMatch c a = 0.7) ∧
    (geoMatch c a = 1 ↔ a.geoRegion = c.geoRegion) ∧
    (a.geoRegion ≠ c.geoRegion → geoMatch c a = 0.8) ∧
    priorityFactor .CRITICAL = 1.5 ∧ priorityFactor .HIGH = 1.3 ∧
    priorityFactor .MEDIUM = 1 ∧ priorityFactor .LOW = 0.8 ∧
    finalScore c a = c.recoveryProbability * dcaScore c a * priorityFactor c.priority ∧
    candidateEntry c a ∈ candidateDetails c agents ∧
    (candidateEntry c a).dcaScore = roundTo 4 (dcaScore c a) ∧
    (candidateEntry c a).priorityFactor = priorityFactor c.priority ∧
    (candidateEntry c a).finalScore = roundTo 6 (finalScore c a) := by
  refine ⟨?_, ?_, ?_, ?_, ?_, rfl, rfl, rfl, rfl, rfl, ?_, rfl, rfl, rfl⟩
  · unfold dcaScore specSuitabilityScore specializationMatch geoMatch
    split_ifs <;> ring_nf
  · unfold specializationMatch
    split_ifs with h
    · simp [h]
    · simp only [h, iff_false]
      norm_num
  · intro h
    unfold specializationMatch
    rw [if_neg h]
  · unfold geoMatch
    split_ifs with h
    · simp [h]
    · simp only [h, iff_false]
      norm_num
  · intro h
    unfold geoMatch
    rw [if_neg h]
  · exact List.mem_map_of_mem _ (List.mem_filter.mpr ⟨ha, hcap⟩)

/-- Witness for C2: DCA-001 in the fixed registry, for the demo case. -/
theorem suitability_formula_and_candidate_record_witness :
    (dca1 ∈ dcaProfiles ∧ hasCapacity dca1 = true) ∧
    dcaScore demoCase dca1 = specSuitabilityScore demoCase dca1 ∧
    candidateEntry demoCase dca1 ∈ candidateDetails demoCase dcaProfiles :=
  ⟨⟨by simp [dcaProfiles], by norm_num [hasCapacity, dca1]⟩,
    (suitability_formula_and_candidate_record demoCase dca1 dcaProfiles
      (by simp [dcaProfiles]) (by norm_num [hasCapacity, dca1])).1,
    (suitability_formula_and_candidate_record demoCase dca1 dcaProfiles
      (by simp [dcaProfiles]) (by norm_num [hasCapacity, dca1])).2.2.2.2.2.2.2.2.2.2.1⟩

/-- Each scan step either keeps the accumulator or installs the current
agent, and only when that agent passes the capacity filter. -/
lemma scanStep_result (c : Case) (acc : Option (Agent × ℚ)) (a : Agent) :
    scanStep c acc a = acc ∨
    (scanStep c acc a = some (a, finalScore c a) ∧ hasCapacity a = true) := by
  by_cases h : hasCapacity a = true
  · cases acc with
    | none => rw [scanStep_elig_none c a h]; exact Or.inr ⟨rfl, h⟩
    | some p =>
        obtain ⟨b, bs⟩ := p
        rw [scanStep_elig_some c a b bs h]
        by_cases hgt : finalScore c a > bs
        · exact Or.inr ⟨if_pos hgt, h⟩
        · exact Or.inl (if_neg hgt)
  · have h' : hasCapacity a = false := by
      cases hca : hasCapacity a
      · rfl
      · exact absurd hca h
    exact Or.inl (scanStep_skip c acc a h')

/-- The scan never returns an agent that failed the capacity filter. -/
lemma scan_capacity (c : Case) (rest : List Agent) :
    ∀ (acc : Option (Agent × ℚ)),
      (∀ b bs, acc = some (b, bs) → hasCapacity b = true) →
      ∀ w s, rest.foldl (scanStep c) acc = some (w, s) → hasCapacity w = true := by
  induction rest with
  | nil => exact fun acc hacc w s h => hacc w s h
  | cons a rest ih =>
    intro acc hacc w s h
    rw [List.foldl_cons] at h
    refine ih (scanStep c acc a) ?_ w s h
    intro b bs hb
    rcases scanStep_result c acc a with heq | ⟨heq, hcap⟩
    · exact hacc b bs (heq ▸ hb)
    · rw [heq] at hb
      cases hb
      exact hcap

/-- When every agent fails the capacity filter, the scan returns nothing. -/
lemma scan_all_saturated (c : Case) (agents : List Agent)
    (h : ∀ a ∈ agents, hasCapacity a = false) :
    selectAgent c agents = none := by
  induction agents with
  | nil => rfl
  | cons a rest ih =>
    show (a :: rest).foldl (scanStep c) none = none
    rw [List.foldl_cons, scanStep_skip c _ a (h a (List.mem_cons_self _ _))]
    exact ih fun x hx => h x (List.mem_cons_of_mem _ hx)

/-- C3: the scan only ever selects an agent with load strictly below
capacity, and when every agent is saturated (load at capacity) the
allocation attempt selects nothing — the NoCapacity outcome — and returns
the case and the registry completely unchanged (agent reference and SLA
deadlines still null, every load untouched). -/
theorem saturated_agents_never_allocated (c : Case) (agents : List Agent) (now : ℚ) :
    (∀ w s, selectAgent c agents = some (w, s) → w.currentLoad < w.capacity) ∧
    ((∀ a ∈ agents, a.capacity ≤ a.currentLoad) →
      selectAgent c agents = none ∧
      allocateCaseIntelligently c agents now = (c, agents)) := by
  constructor
  · intro w s hsel
    have hcap := scan_capacity c agents none (by intro b bs h; cases h) w s hsel
    exact of_decide_eq_true hcap
  · intro hsat
    have hnone : selectAgent c agents = none := by
      refine scan_all_saturated c agents ?_
      intro a ha
      have : ¬ a.currentLoad < a.capacity := not_lt.mpr (hsat a ha)
      simpa [hasCapacity] using this
    exact ⟨hnone, by rw [allocateCaseIntelligently, hnone]⟩

/-- Witness for C3: the fully saturated registry (every load 5 of 5) yields
no selection and an unchanged case/registry pair. -/
theorem saturated_agents_never_allocated_witness :
    (∀ a ∈ satRegistry, a.capacity ≤ a.currentLoad) ∧
    selectAgent demoCase satRegistry = none ∧
    allocateCaseIntelligently demoCase satRegistry 0 = (demoCase, satRegistry) := by
  have hsat : ∀ a ∈ satRegistry, a.capacity ≤ a.currentLoad := by
    intro a ha
    simp only [satRegistry, dca1, dca2, dca3, dca4, List.mem_cons,
      List.not_mem_nil, or_false] at ha
    rcases ha with rfl | rfl | rfl | rfl <;> norm_num
  exact ⟨hsat, (saturated_agents_never_allocated demoCase satRegistry 0).2 hsat⟩

/-- C6: the risk classifier evaluates its thresholds in order with first
match winning — CRITICAL on amount>100000 or age>180, then HIGH on
amount>50000 or age>120, then MEDIUM on amount>20000 or age>60, else LOW —
and in particular amount=150000, age=10 is CRITICAL while amount=30000,
age=65 is MEDIUM. -/
theorem risk_tier_first_match (amount age : ℚ) :
    (tierOfIndex (assessRisk amount age) = .CRITICAL ↔
      amount > 100000 ∨ age > 180) ∧
    (tierOfIndex (assessRisk amount age) = .HIGH ↔
      ¬(amount > 100000 ∨ age > 180) ∧ (amount > 50000 ∨ age > 120)) ∧
    (tierOfIndex (assessRisk amount age) = .MEDIUM ↔
      ¬(amount > 100000 ∨ age > 180) ∧ ¬(amount > 50000 ∨ age > 120) ∧
        (amount > 20000 ∨ age > 60)) ∧
    (tierOfIndex (assessRisk amount age) = .LOW ↔
      ¬(amount > 100000 ∨ age > 180) ∧ ¬(amount > 50000 ∨ age > 120) ∧
        ¬(amount > 20000 ∨ age > 60)) ∧
    tierOfIndex (assessRisk 150000 10) = .CRITICAL ∧
    tierOfIndex (assessRisk 30000 65) = .MEDIUM := by
  refine ⟨?_, ?_, ?_, ?_, ?_, ?_⟩
  · unfold assessRisk
    split_ifs <;> simp_all [tierOfIndex]
  · unfold assessRisk
    split_ifs <;> simp_all [tierOfIndex]
  · unfold assessRisk
    split_ifs <;> simp_all [tierOfIndex]
  · unfold assessRisk
    split_ifs <;> simp_all [tierOfIndex]
  · norm_num [assessRisk, tierOfIndex]
  · norm_num [assessRisk, tierOfIndex]

/-- C7: the three SLA deadlines computed at allocation time add the per-tier
offsets (CRITICAL 24h/2d/7d, HIGH 48h/3d/15d, MEDIUM 72h/4d/20d,
LOW 96h/7d/30d, in milliseconds) to the current time, they are strictly
ordered firstAction < followUp < resolution for every tier, and a successful
allocation stores exactly this deadline set for the case's tier. -/
theorem sla_deadlines_offsets_and_order (t : Tier) (now : ℚ) (c : Case)
    (agents : List Agent) (w : Agent) (s : ℚ)
    (hsel : selectAgent c agents = some (w, s)) :
    (mkSlaDeadlines t now).firstAction
        = now + (slaConfig t).firstActionHours * 3600000 ∧
    (mkSlaDeadlines t now).followUp
        = now + (slaConfig t).followUpDays * 24 * 3600000 ∧
    (mkSlaDeadlines t now).resolution
        = now + (slaConfig t).resolutionDays * 24 * 3600000 ∧
    slaConfig .CRITICAL = ⟨24, 2, 7⟩ ∧ slaConfig .HIGH = ⟨48, 3, 15⟩ ∧
    slaConfig .MEDIUM = ⟨72, 4, 20⟩ ∧ slaConfig .LOW = ⟨96, 7, 30⟩ ∧
    (mkSlaDeadlines t now).firstAction < (mkSlaDeadlines t now).followUp ∧
    (mkSlaDeadlines t now).followUp < (mkSlaDeadlines t now).resolution ∧
    (allocateCaseIntelligently c agents now).1.slaDeadlines
        = some (mkSlaDeadlines (tierOfIndex (assessRisk c.debtAmount c.debtAge)) now) := by
  refine ⟨rfl, rfl, rfl, rfl, rfl, rfl, rfl, ?_, ?_, ?_⟩
  · cases t <;> simp [mkSlaDeadlines, slaConfig] <;> norm_num
  · cases t <;> simp [mkSlaDeadlines, slaConfig] <;> norm_num
  · rw [allocateCaseIntelligently, hsel]

/-- Witness for C7: CRITICAL tier at epoch 0, with the demo selection. -/
theorem sla_deadlines_offsets_and_order_witness :
    selectAgent demoCase dcaProfiles = some (dca1, 2073 / 4000) ∧
    (mkSlaDeadlines .CRITICAL 0).firstAction < (mkSlaDeadlines .CRITICAL 0).followUp ∧
    (mkSlaDeadlines .CRITICAL 0).followUp < (mkSlaDeadlines .CRITICAL 0).resolution ∧
    (allocateCaseIntelligently demoCase dcaProfiles 0).1.slaDeadlines
        = some (mkSlaDeadlines
            (tierOfIndex (assessRisk demoCase.debtAmount demoCase.debtAge)) 0) :=
  ⟨selectAgent_demo_eval,
    (sla_deadlines_offsets_and_order .CRITICAL 0 demoCase dcaProfiles dca1 (2073 / 4000)
      selectAgent_demo_eval).2.2.2.2.2.2.2.1,
    (sla_deadlines_offsets_and_order .CRITICAL 0 demoCase dcaProfiles dca1 (2073 / 4000)
      selectAgent_demo_eval).2.2.2.2.2.2.2.2.1,
    (sla_deadlines_offsets_and_order .CRITICAL 0 demoCase dcaProfiles dca1 (2073 / 4000)
      selectAgent_demo_eval).2.2.2.2.2.2.2.2.2⟩

/-- Unfolding equation of the per-case SLA evaluation on a live case with
deadlines. -/
lemma evalCaseSLA_eq (now : ℚ) (c : Case) (agents : List Agent) (d : SlaDeadlines)
    (hres : c.status ≠ .RESOLVED) (hd : c.slaDeadlines = some d) :
    evalCaseSLA now c agents =
      ((if now > d.resolution then { c with slaBreached := true } else c),
       (if now > d.resolution then applyBreachPenalty c.allocatedDCA agents else agents),
       some { caseId := c.caseId
              breached := decide (now > d.resolution)
              hoursRemaining := roundTo 1 (max 0 ((d.resolution - now) / 3600000)) }) := by
  unfold evalCaseSLA
  rw [if_neg hres, hd]

/-- Rounding a nonnegative rational to a fixed number of decimal digits
stays nonnegative. -/
lemma roundTo_nonneg (digits : ℕ) (x : ℚ) (hx : 0 ≤ x) : 0 ≤ roundTo digits x := by
  unfold roundTo
  apply div_nonneg
  · have : (0 : ℚ) ≤ x * 10 ^ digits + 1 / 2 := by positivity
    exact_mod_cast Int.floor_nonneg.mpr this
  · positivity

/-- Rounding zero gives zero. -/
lemma roundTo_zero (digits : ℕ) : roundTo digits 0 = 0 := by
  unfold roundTo
  norm_num

/-- Any entry the per-case evaluation emits has a nonnegative, breach-clamped
hours-remaining field. -/
lemma evalCaseSLA_entry_clamped (now : ℚ) (c : Case) (agents : List Agent)
    (e : SlaEntry) (he : (evalCaseSLA now c agents).2.2 = some e) :
    0 ≤ e.hoursRemaining ∧ (e.breached = true → e.hoursRemaining = 0) := by
  by_cases hres : c.status = .RESOLVED
  · rw [show evalCaseSLA now c agents = (c, agents, none) by
      unfold evalCaseSLA; rw [if_pos hres]] at he
    cases he
  · cases hd : c.slaDeadlines with
    | none =>
        rw [show evalCaseSLA now c agents = (c, agents, none) by
          unfold evalCaseSLA; rw [if_neg hres, hd]] at he
        cases he
    | some d =>
        rw [evalCaseSLA_eq now c agents d hres hd] at he
        cases he
        constructor
        · exact roundTo_nonneg 1 _ (le_max_left _ _)
        · intro hb
          have hgt : now > d.resolution := of_decide_eq_true hb
          have hmax : max 0 ((d.resolution - now) / 3600000) = 0 := by
            apply max_eq_left
            apply div_nonpos_of_nonpos_of_nonneg
            · linarith
            · norm_num
          show roundTo 1 (max 0 ((d.resolution - now) / 3600000)) = 0
          rw [hmax, roundTo_zero]

/-- Entry-wise properties survive the whole registry sweep. -/
lemma evaluateSLA_entries (now : ℚ) (P : SlaEntry → Prop)
    (hP : ∀ c agents e, (evalCaseSLA now c agents).2.2 = some e → P e)
    (cs : List Case) :
    ∀ acc : List Case × List Agent × List SlaEntry,
      (∀ e ∈ acc.2.2, P e) →
      ∀ e ∈ (cs.foldl (slaSweepStep now) acc).2.2, P e := by
  induction cs with
  | nil => exact fun acc hacc e he => hacc e he
  | cons c cs ih =>
    intro acc hacc e he
    rw [List.foldl_cons] at he
    refine ih (slaSweepStep now acc c) ?_ e he
    intro x hx
    rcases List.mem_append.mp hx with hx' | hx'
    · exact hacc x hx'
    · refine hP c acc.2.1 x ?_
      rcases Option.mem_toList.mp hx' with hsome
      exact Option.mem_def.mp hsome

/-- C10: every row of the SLA status report carries a nonnegative
hoursRemaining; a case past its resolution deadline is reported breached
with hoursRemaining clamped to exactly 0, never negative. -/
theorem sla_hours_remaining_never_negative (now : ℚ) (cases : List Case)
    (agents : List Agent) (e : SlaEntry)
    (he : e ∈ (evaluateSLA now cases agents).2.2) :
    0 ≤ e.hoursRemaining ∧ (e.breached = true → e.hoursRemaining = 0) := by
  refine evaluateSLA_entries now
    (fun x => 0 ≤ x.hoursRemaining ∧ (x.breached = true → x.hoursRemaining = 0))
    (fun c ags x hx => evalCaseSLA_entry_clamped now c ags x hx)
    cases ([], agents, []) ?_ e he
  intro x hx
  cases hx

/-- Witness for C10: sweeping the single breached demo case reports it
breached with zero hours remaining. -/
theorem sla_hours_remaining_never_negative_witness :
    (⟨"FDX-1001", true, 0⟩ : SlaEntry) ∈
      (evaluateSLA 3600000 [breachedCase] [dca1]).2.2 ∧
    (0 : ℚ) ≤ (0 : ℚ) ∧ ((true = true → (0 : ℚ) = 0)) := by
  have hmem : (⟨"FDX-1001", true, 0⟩ : SlaEntry) ∈
      (evaluateSLA 3600000 [breachedCase] [dca1]).2.2 := by
    have he := evalCaseSLA_eq 3600000 breachedCase [dca1] ⟨-600 * 3600000, -400 * 3600000, 0⟩
      (by simp [breachedCase, demoCase, ingestCase]) rfl
    simp only [evaluateSLA, List.foldl_cons, List.foldl_nil, slaSweepStep, he]
    norm_num [breachedCase, demoCase, ingestCase, roundTo]
  exact ⟨hmem,
    (sla_hours_remaining_never_negative 3600000 [breachedCase] [dca1]
      ⟨"FDX-1001", true, 0⟩ hmem).1,
    fun _ => rfl⟩

/-- The breach penalty re-adds the agent with its counter bumped whenever
the agent record matches the allocated id. -/
lemma applyBreachPenalty_mem (i : ℕ) (ags : List Agent) (b : Agent)
    (hb : b ∈ ags) (hbi : b.dcaId = i) :
    { b with slaBreaches := b.slaBreaches + 1 } ∈ applyBreachPenalty (some i) ags := by
  have hfb : (fun x =>
      if x.dcaId = i then { x with slaBreaches := x.slaBreaches + 1 } else x) b
      = { b with slaBreaches := b.slaBreaches + 1 } := by
    simp [hbi]
  exact hfb ▸ List.mem_map_of_mem _ hb

/-- C4 counterexample: the SLA sweep has no already-counted guard, so
evaluating the same breached case twice at the same instant bumps the
allocated agent's breach counter twice — the registry shows 2, not the 1
the claim promises. -/
theorem sla_breach_double_count_cex :
    ((evalCaseSLA 3600000
        (evalCaseSLA 3600000 breachedCase [dca1]).1
        (evalCaseSLA 3600000 breachedCase [dca1]).2.1).2.1.map Agent.slaBreaches
      = [2]) ∧ (2 : ℕ) ≠ 1 := by
  have h1 := evalCaseSLA_eq 3600000 breachedCase [dca1]
    ⟨-600 * 3600000, -400 * 3600000, 0⟩
    (by simp [breachedCase, demoCase, ingestCase]) rfl
  have hgt : (3600000 : ℚ) > (0 : ℚ) := by norm_num
  rw [h1]
  simp only [if_pos hgt]
  have h2 := evalCaseSLA_eq 3600000 ({ breachedCase with slaBreached := true })
    (applyBreachPenalty breachedCase.allocatedDCA [dca1])
    ⟨-600 * 3600000, -400 * 3600000, 0⟩
    (by simp [breachedCase, demoCase, ingestCase]) rfl
  rw [h2]
  simp only [if_pos hgt]
  constructor
  · show (applyBreachPenalty _ (applyBreachPenalty _ [dca1])).map Agent.slaBreaches = [2]
    simp [applyBreachPenalty, breachedCase, demoCase, ingestCase, dca1]
  · norm_num

/-- C4 (amended): for a live case with deadlines, the SLA evaluation reports
breached exactly when now is past the resolution deadline, but it is NOT
idempotent with respect to the agent's breach counter: every evaluation of a
breached case increments the allocated agent's cumulative counter, so two
evaluations with the same now increment it twice. -/
theorem sla_breach_counter_per_evaluation (now : ℚ) (c : Case)
    (agents : List Agent) (d : SlaDeadlines) (i : ℕ) (a : Agent)
    (hres : c.status ≠ .RESOLVED) (hd : c.slaDeadlines = some d)
    (halloc : c.allocatedDCA = some i) (ha : a ∈ agents) (hai : a.dcaId = i) :
    (evalCaseSLA now c agents).2.2 = some
        ⟨c.caseId, decide (now > d.resolution),
          roundTo 1 (max 0 ((d.resolution - now) / 3600000))⟩ ∧
    (now > d.resolution →
      { a with slaBreaches := a.slaBreaches + 1 } ∈ (evalCaseSLA now c agents).2.1 ∧
      { a with slaBreaches := a.slaBreaches + 2 } ∈
        (evalCaseSLA now (evalCaseSLA now c agents).1
          (evalCaseSLA now c agents).2.1).2.1) := by
  have h1 := evalCaseSLA_eq now c agents d hres hd
  constructor
  · rw [h1]
  · intro hgt
    have hag1 : (evalCaseSLA now c agents).2.1 = applyBreachPenalty (some i) agents := by
      rw [h1]
      simp only [if_pos hgt, halloc]
    have hc1 : (evalCaseSLA now c agents).1 = { c with slaBreached := true } := by
      rw [h1]
      simp only [if_pos hgt]
    refine ⟨hag1 ▸ applyBreachPenalty_mem i agents a ha hai, ?_⟩
    have h2 := evalCaseSLA_eq now ({ c with slaBreached := true })
      ((evalCaseSLA now c agents).2.1) d hres hd
    rw [hc1, h2]
    simp only [if_pos hgt, halloc]
    rw [hag1]
    have hm := applyBreachPenalty_mem i (applyBreachPenalty (some i) agents)
      ({ a with slaBreaches := a.slaBreaches + 1 })
      (applyBreachPenalty_mem i agents a ha hai) hai
    have hflat : ({ ({ a with slaBreaches := a.slaBreaches + 1 } : Agent) with
        slaBreaches := ({ a with slaBreaches := a.slaBreaches + 1 } : Agent).slaBreaches + 1 } : Agent)
        = { a with slaBreaches := a.slaBreaches + 2 } := by
      show ({ a with slaBreaches := a.slaBreaches + 1 + 1 } : Agent) = _
      rw [add_assoc]
    exact hflat ▸ hm

/-- Witness for C4's amended theorem: the breached demo case over the
single-agent registry, evaluated twice at the same instant. -/
theorem sla_breach_counter_per_evaluation_witness :
    (breachedCase.status ≠ .RESOLVED ∧
      breachedCase.slaDeadlines = some ⟨-600 * 3600000, -400 * 3600000, 0⟩ ∧
      breachedCase.allocatedDCA = some 1 ∧ dca1 ∈ [dca1] ∧ dca1.dcaId = 1 ∧
      (3600000 : ℚ) > (0 : ℚ)) ∧
    { dca1 with slaBreaches := dca1.slaBreaches + 1 } ∈
      (evalCaseSLA 3600000 breachedCase [dca1]).2.1 ∧
    { dca1 with slaBreaches := dca1.slaBreaches + 2 } ∈
      (evalCaseSLA 3600000 (evalCaseSLA 3600000 breachedCase [dca1]).1
        (evalCaseSLA 3600000 breachedCase [dca1]).2.1).2.1 :=
  ⟨⟨by simp [breachedCase, demoCase, ingestCase], rfl, rfl, by simp, rfl, by norm_num⟩,
    (sla_breach_counter_per_evaluation 3600000 breachedCase [dca1]
      ⟨-600 * 3600000, -400 * 3600000, 0⟩ 1 dca1
      (by simp [breachedCase, demoCase, ingestCase]) rfl rfl (by simp) rfl).2
      (by norm_num)⟩

/-- C5 counterexample: the escalate handler performs no status check and
knows no InvalidTransition outcome, so escalating a RESOLVED case succeeds
and overwrites the status — RESOLVED is not terminal in the code. -/
theorem resolved_case_escalates_cex :
    resolvedDemo.status = .RESOLVED ∧
    (escalate resolvedDemo "dca1@company.com" "debtor dispute" "LEGAL").status
      = .ESCALATED ∧
    (escalate resolvedDemo "dca1@company.com" "debtor dispute" "LEGAL").status
      ≠ resolvedDemo.status := by
  refine ⟨rfl, rfl, ?_⟩
  show Status.ESCALATED ≠ Status.RESOLVED
  simp

/-- C5 (amended): RESOLVED is not terminal: the lifecycle handlers perform
no status check and never fail with InvalidTransition, so on a RESOLVED case
logging an interaction succeeds and sets IN_PROGRESS, escalating succeeds
and sets ESCALATED, and resolving again succeeds and re-sets RESOLVED. -/
theorem resolved_not_terminal (c : Case) (agents : List Agent)
    (u reason target itype details result rt : String) (did : ℕ) (hour : ℕ)
    (amt : ℚ) (hres : c.status = .RESOLVED) :
    (escalate c u reason target).status = .ESCALATED ∧
    (escalate c u reason target).status ≠ c.status ∧
    (logInteraction c itype details result u did hour).status = .IN_PROGRESS ∧
    (logInteraction c itype details result u did hour).status ≠ c.status ∧
    ((resolveCase c agents u rt amt).1).status = .RESOLVED := by
  rw [hres]
  refine ⟨rfl, by simp [escalate], ?_, ?_, rfl⟩
  · show (logInteraction c itype details result u did hour).status = .IN_PROGRESS
    unfold logInteraction
    split_ifs <;> rfl
  · show (logInteraction c itype details result u did hour).status ≠ .RESOLVED
    unfold logInteraction
    split_ifs <;> simp

/-- Witness for C5's amended theorem: the concrete resolved demo case. -/
theorem resolved_not_terminal_witness :
    resolvedDemo.status = .RESOLVED ∧
    (escalate resolvedDemo "u" "r" "LEGAL").status = .ESCALATED ∧
    (logInteraction resolvedDemo "CALL" "d" "SUCCESS" "u" 1 20).status
      = .IN_PROGRESS ∧
    ((resolveCase resolvedDemo [dca1] "u" "RECOVERED" 5000).1).status = .RESOLVED :=
  ⟨rfl,
    (resolved_not_terminal resolvedDemo [dca1] "u" "r" "LEGAL" "CALL" "d" "SUCCESS"
      "RECOVERED" 1 20 5000 rfl).1,
    (resolved_not_terminal resolvedDemo [dca1] "u" "r" "LEGAL" "CALL" "d" "SUCCESS"
      "RECOVERED" 1 20 5000 rfl).2.2.1,
    (resolved_not_terminal resolvedDemo [dca1] "u" "r" "LEGAL" "CALL" "d" "SUCCESS"
      "RECOVERED" 1 20 5000 rfl).2.2.2.2⟩

/-- On the freshly ingested demo case (recovery probability 49/72) the scan
picks DCA-001 with final score 49/72 · 0.691 · 1.5. -/
lemma selectAgent_ingest_eval :
    selectAgent (ingestCase "FDX-1001" 150000 10 "North-East" 0) dcaProfiles
      = some (dca1, 33859 / 48000) := by
  norm_num [selectAgent, List.foldl_cons, List.foldl_nil, scanStep, hasCapacity,
    finalScore, dcaScore, specializationMatch, geoMatch, priorityFactor,
    ingestCase, assessRisk, tierOfIndex, calculateRecoveryProbability,
    dcaProfiles, dca1, dca2, dca3, dca4]
  simp
  norm_num

/-- C8 counterexample: in the main engine, intake classifies the case (tier
CRITICAL, probability 49/72 set) while the status stays RECEIVED — not
PRIORITIZED — and the immediately following successful allocation moves it
straight from RECEIVED to ALLOCATED. -/
theorem classification_skips_prioritized_cex :
    (ingestCase "FDX-1001" 150000 10 "North-East" 0).status = .RECEIVED ∧
    (ingestCase "FDX-1001" 150000 10 "North-East" 0).priority = .CRITICAL ∧
    (ingestCase "FDX-1001" 150000 10 "North-East" 0).recoveryProbability = 49 / 72 ∧
    (ingestCase "FDX-1001" 150000 10 "North-East" 0).status ≠ Status.PRIORITIZED ∧
    (allocateCaseIntelligently (ingestCase "FDX-1001" 150000 10 "North-East" 0)
        dcaProfiles 0).1.status = .ALLOCATED := by
  refine ⟨rfl, ?_, ?_, by simp [ingestCase], ?_⟩
  · norm_num [ingestCase, assessRisk, tierOfIndex]
  · norm_num [ingestCase, calculateRecoveryProbability]
  · rw [allocateCaseIntelligently, selectAgent_ingest_eval]

/-- C8 (amended): in the main engine, classification happens at intake while
the case's status remains RECEIVED (tier and recovery probability are set on
the newly created RECEIVED case), and a successful allocation moves the case
directly from RECEIVED to ALLOCATED; the PRIORITIZED status is produced only
by the alternate queue pipeline's `prioritizeCase`. -/
theorem classification_at_intake_keeps_received (cid : String) (amt age : ℚ)
    (geo : String) (noise : ℚ) (agents : List Agent) (now : ℚ) (w : Agent)
    (s : ℚ) (qc : QCase) (draw : ℚ)
    (hsel : selectAgent (ingestCase cid amt age geo noise) agents = some (w, s)) :
    (ingestCase cid amt age geo noise).status = .RECEIVED ∧
    (ingestCase cid amt age geo noise).priority = tierOfIndex (assessRisk amt age) ∧
    (ingestCase cid amt age geo noise).recoveryProbability
      = calculateRecoveryProbability amt age noise ∧
    (allocateCaseIntelligently (ingestCase cid amt age geo noise) agents now).1.status
      = .ALLOCATED ∧
    (prioritizeCase qc draw).status = .PRIORITIZED := by
  refine ⟨rfl, rfl, rfl, ?_, rfl⟩
  rw [allocateCaseIntelligently, hsel]

/-- Witness for C8's amended theorem: the demo intake over the fixed
registry, and an arbitrary concrete queue-pipeline case. -/
theorem classification_at_intake_keeps_received_witness :
    selectAgent (ingestCase "FDX-1001" 150000 10 "North-East" 0) dcaProfiles
      = some (dca1, 33859 / 48000) ∧
    (ingestCase "FDX-1001" 150000 10 "North-East" 0).status = .RECEIVED ∧
    (allocateCaseIntelligently (ingestCase "FDX-1001" 150000 10 "North-East" 0)
        dcaProfiles 0).1.status = .ALLOCATED ∧
    (prioritizeCase ⟨"FDX-1002", 30000, 65, .RECEIVED, none, none, none⟩
        (7 / 10)).status = .PRIORITIZED :=
  ⟨selectAgent_ingest_eval,
    (classification_at_intake_keeps_received "FDX-1001" 150000 10 "North-East" 0
      dcaProfiles 0 dca1 (33859 / 48000)
      ⟨"FDX-1002", 30000, 65, .RECEIVED, none, none, none⟩ (7 / 10)
      selectAgent_ingest_eval).1,
    (classification_at_intake_keeps_received "FDX-1001" 150000 10 "North-East" 0
      dcaProfiles 0 dca1 (33859 / 48000)
      ⟨"FDX-1002", 30000, 65, .RECEIVED, none, none, none⟩ (7 / 10)
      selectAgent_ingest_eval).2.2.2.1,
    (classification_at_intake_keeps_received "FDX-1001" 150000 10 "North-East" 0
      dcaProfiles 0 dca1 (33859 / 48000)
      ⟨"FDX-1002", 30000, 65, .RECEIVED, none, none, none⟩ (7 / 10)
      selectAgent_ingest_eval).2.2.2.2⟩

/-- Reserving a case on an agent preserves load = |case-list| for every
registry entry (the load bump and the list push happen together). -/
lemma reserveAgent_load_invariant (wid : ℕ) (cid : String) :
    ∀ agents : List Agent, loadInvariant agents →
      loadInvariant (reserveAgent wid cid agents) := by
  intro agents
  induction agents with
  | nil => intro _ a ha; cases ha
  | cons b rest ih =>
    intro h a ha
    have hrest : loadInvariant rest := fun x hx => h x (List.mem_cons_of_mem _ hx)
    unfold reserveAgent at ha
    by_cases hb : b.dcaId = wid
    · rw [if_pos hb] at ha
      rcases List.mem_cons.mp ha with rfl | ha'
      · show b.currentLoad + 1 = (((b.cases ++ [cid]).length : ℕ) : ℚ)
        rw [List.length_append, h b (List.mem_cons_self _ _)]
        push_cast [List.length_singleton]
        ring
      · exact hrest a ha'
    · rw [if_neg hb] at ha
      rcases List.mem_cons.mp ha with rfl | ha'
      · exact h a (List.mem_cons_self _ _)
      · exact ih hrest a ha'

/-- The release half of manual reallocation removes one case id and one unit
of load together, preserving load = |case-list|. -/
lemma releaseFromOld_winvariant (cid : String) (oldId : ℕ) (ws : List Workload)
    (h : wloadInvariant ws) : wloadInvariant (releaseFromOld cid oldId ws) := by
  intro w hw
  rcases List.mem_map.mp hw with ⟨x, hx, rfl⟩
  by_cases hc : x.dcaId = oldId ∧ cid ∈ x.cases
  · rw [if_pos hc]
    show x.current - 1 = (((x.cases.erase cid).length : ℕ) : ℚ)
    have hpos : 1 ≤ x.cases.length := List.length_pos_of_mem hc.2
    rw [h x hx, List.length_erase_of_mem hc.2, Nat.cast_sub hpos, Nat.cast_one]
  · rw [if_neg hc]
    exact h x hx

/-- The assignment half of manual reallocation appends one case id and one
unit of load together, preserving load = |case-list|. -/
lemma assignTo_winvariant (cid : String) (tid : ℕ) (ws : List Workload)
    (h : wloadInvariant ws) : wloadInvariant (assignTo cid tid ws) := by
  intro w hw
  rcases List.mem_map.mp hw with ⟨x, hx, rfl⟩
  by_cases hc : x.dcaId = tid
  · rw [if_pos hc]
    show x.current + 1 = (((x.cases ++ [cid]).length : ℕ) : ℚ)
    rw [List.length_append, h x hx]
    push_cast [List.length_singleton]
    ring
  · rw [if_neg hc]
    exact h x hx

/-- C9 counterexample: the queue pipeline's seeded workload table violates
load = |case-list| already before its first reallocation (DCA-001 carries
load 2 with an empty case list), and the violation persists after a
reallocation onto DCA-001 (load 3 against a one-element list) — so the
invariant does not hold before and after every release/reallocation. -/
theorem load_invariant_seed_cex :
    (⟨1, 5, 2, []⟩ : Workload) ∈ dcaWorkloadSeed ∧
    (⟨1, 5, 2, []⟩ : Workload).current
      ≠ ((((⟨1, 5, 2, []⟩ : Workload).cases.length : ℕ)) : ℚ) ∧
    manualReallocate "FDX-1001" 1 none dcaWorkloadSeed =
      some [⟨1, 5, 3, ["FDX-1001"]⟩, ⟨2, 5, 1, []⟩, ⟨3, 5, 3, []⟩, ⟨4, 5, 0, []⟩] ∧
    (⟨1, 5, 3, ["FDX-1001"]⟩ : Workload).current
      ≠ ((((⟨1, 5, 3, ["FDX-1001"]⟩ : Workload).cases.length : ℕ)) : ℚ) := by
  refine ⟨by simp [dcaWorkloadSeed], by norm_num, ?_, by norm_num⟩
  simp [manualReallocate, assignTo, dcaWorkloadSeed]
  norm_num

/-- C9 (amended): each allocation and each release/reallocation changes the
load counter and the case list together, so load = |case-list| is preserved:
it holds after whenever it holds before, for every agent; the main engine's
registry satisfies it from the start (all loads 0, all lists empty), while
the queue pipeline's seeded table does not. -/
theorem load_matches_case_list_preserved (c : Case) (agents : List Agent)
    (now : ℚ) (cid : String) (tid : ℕ) (oldDCA : Option ℕ)
    (ws ws2 : List Workload) (hA : loadInvariant agents) (hW : wloadInvariant ws)
    (hre : manualReallocate cid tid oldDCA ws = some ws2) :
    loadInvariant dcaProfiles ∧
    loadInvariant (allocateCaseIntelligently c agents now).2 ∧
    wloadInvariant ws2 := by
  refine ⟨?_, ?_, ?_⟩
  · intro a ha
    simp only [dcaProfiles, List.mem_cons, List.not_mem_nil, or_false] at ha
    rcases ha with rfl | rfl | rfl | rfl <;> norm_num [dca1, dca2, dca3, dca4]
  · unfold allocateCaseIntelligently
    cases hsel : selectAgent c agents with
    | none => exact hA
    | some p => exact reserveAgent_load_invariant p.1.dcaId c.caseId agents hA
  · unfold manualReallocate at hre
    by_cases he : (ws.filter fun w => w.dcaId = tid).isEmpty = true
    · rw [if_pos he] at hre
      cases hre
    · rw [if_neg he] at hre
      cases oldDCA with
      | none =>
          cases hre
          exact assignTo_winvariant cid tid ws hW
      | some oid =>
          cases hre
          exact assignTo_winvariant cid tid _ (releaseFromOld_winvariant cid oid ws hW)

/-- A well-formed two-agent workload table used by the C9 witness. -/
def wsDemo : List Workload := [⟨1, 5, 0, []⟩, ⟨2, 5, 1, ["FDX-0999"]⟩]

/-- The table after reallocating FDX-0999 from DCA-002 to DCA-001. -/
def wsDemo2 : List Workload := [⟨1, 5, 1, ["FDX-0999"]⟩, ⟨2, 5, 0, []⟩]

/-- Witness for C9's amended theorem: reallocating the single live case of a
well-formed table keeps the invariant, as does allocating the demo case. -/
theorem load_matches_case_list_preserved_witness :
    (loadInvariant dcaProfiles ∧ wloadInvariant wsDemo ∧
      manualReallocate "FDX-0999" 1 (some 2) wsDemo = some wsDemo2) ∧
    loadInvariant (allocateCaseIntelligently demoCase dcaProfiles 0).2 ∧
    wloadInvariant wsDemo2 := by
  have hA : loadInvariant dcaProfiles := by
    intro a ha
    simp only [dcaProfiles, List.mem_cons, List.not_mem_nil, or_false] at ha
    rcases ha with rfl | rfl | rfl | rfl <;> norm_num [dca1, dca2, dca3, dca4]
  have hW : wloadInvariant wsDemo := by
    intro w hw
    simp only [wsDemo, List.mem_cons, List.not_mem_nil, or_false] at hw
    rcases hw with rfl | rfl <;> norm_num
  have hre : manualReallocate "FDX-0999" 1 (some 2) wsDemo = some wsDemo2 := by
    simp [manualReallocate, releaseFromOld, assignTo, wsDemo, wsDemo2]
  exact ⟨⟨hA, hW, hre⟩,
    (load_matches_case_list_preserved demoCase dcaProfiles 0 "FDX-0999" 1 (some 2)
      wsDemo wsDemo2 hA hW hre).2.1,
    (load_matches_case_list_preserved demoCase dcaProfiles 0 "FDX-0999" 1 (some 2)
      wsDemo wsDemo2 hA hW hre).2.2⟩

end DCA
